import Mathlib

/-!
Shallow embedding of the half-frame-split application (App.vue script section).

The program is a Vue single-page app.  Its script section holds:
  * the `SplitImage` record and the registry `splitImages : SplitImage[]`;
  * `splitImageInHalf` (orientation detection and canvas-half extraction);
  * `processFile` / `handleFileSelect` (batched import with progress);
  * `removeImagePair`, `rotateToDirection`, `toggleCheck` (registry mutation);
  * `downloadHalf` (rotation-aware export of one half);
  * `downloadChecked` (batch export of all selected halves).

Modelling conventions:
  * JavaScript numbers that hold pixel dimensions are natural numbers; the
    assignment `canvas.width = halfWidth` truncates the (possibly fractional)
    JS number `width / 2` toward zero per the WebIDL unsigned-long conversion,
    which for a nonnegative integer `width` equals Nat floor division `width / 2`.
  * The JS `%` operator truncates toward zero (sign of the dividend), which is
    `Int.tmod` in Lean.
  * Data URLs / blobs are uninterpreted `String`s.
  * Asynchronous control flow is modelled by its sequential effect: an awaited
    `Promise.all` either yields all results or (if any member rejects) throws,
    aborting the surrounding `async` function at that `await`.
-/

/-- The per-pair record stored in the registry (`interface SplitImage`). -/
structure SplitImage where
  leftHalf : String
  rightHalf : String
  leftHalfOriginal : String
  rightHalfOriginal : String
  originalName : String
  leftRotation : Int
  rightRotation : Int
  leftChecked : Bool
  rightChecked : Bool
deriving DecidableEq

/-- Which half of a pair an operation addresses (the TS union of the two
side labels left and right). -/
inductive Side where
  | left
  | right
deriving DecidableEq

/-- Field accessor for the rotation of one side of a pair. -/
def getRotation (img : SplitImage) (side : Side) : Int :=
  match side with
  | Side.left => img.leftRotation
  | Side.right => img.rightRotation

/-- Field accessor for the checked flag of one side of a pair. -/
def getChecked (img : SplitImage) (side : Side) : Bool :=
  match side with
  | Side.left => img.leftChecked
  | Side.right => img.rightChecked

/-- Split axis: `vertical` = vertical midline (left/right halves),
`horizontal` = horizontal midline (top/bottom halves). -/
inductive SplitAxis where
  | vertical
  | horizontal
deriving DecidableEq

/-- Orientation detection from `splitImageInHalf`:
`const isHorizontal = width > height`, and the `isHorizontal` branch cuts at
the vertical midline (left/right halves) while the `else` branch cuts at the
horizontal midline (top/bottom halves). -/
def detectAxis (width height : Nat) : SplitAxis :=
  if width > height then SplitAxis.vertical else SplitAxis.horizontal

/-- The four canvas dimensions produced by `splitImageInHalf`.
`first` is the half stored as `leftHalf` (left or top), `second` the half
stored as `rightHalf` (right or bottom). -/
structure HalfDims where
  firstWidth : Nat
  firstHeight : Nat
  secondWidth : Nat
  secondHeight : Nat
deriving DecidableEq

/-- Canvas dimensions computed by `splitImageInHalf`: in the wide branch
`halfWidth = width / 2` is assigned to both half-canvas widths (truncated by
the canvas-attribute conversion, i.e. Nat floor division) with the full
`height`; in the tall branch symmetrically `halfHeight = height / 2` with the
full `width`. -/
def splitDims (width height : Nat) : HalfDims :=
  if width > height then
    { firstWidth := width / 2, firstHeight := height,
      secondWidth := width / 2, secondHeight := height }
  else
    { firstWidth := width, firstHeight := height / 2,
      secondWidth := width, secondHeight := height / 2 }

/-- Normalization `((rotation % 360) + 360) % 360` computed in
`downloadHalf` (JS `%` truncates toward zero, hence `Int.tmod`). -/
def normalizeRotation (x : Int) : Int :=
  (x.tmod 360 + 360).tmod 360

/-- Export canvas dimensions set by `downloadHalf`: swap source width/height
when the normalized rotation is 90 or 270, otherwise keep them. -/
def exportCanvasDims (imgWidth imgHeight : Nat) (rotation : Int) : Nat × Nat :=
  let normalizedRotation := normalizeRotation rotation
  if normalizedRotation = 90 ∨ normalizedRotation = 270 then
    (imgHeight, imgWidth)
  else
    (imgWidth, imgHeight)

/-- Model of `rotateToDirection(pairIndex, side, deltaRotation)`: look the pair up,
return unchanged when the index is out of bounds (`if (!image) return`),
otherwise store `currentRotation + deltaRotation` on the addressed side. -/
def rotateToDirection (l : List SplitImage) (pairIndex : Nat) (side : Side)
    (deltaRotation : Int) : List SplitImage :=
  match l[pairIndex]? with
  | none => l
  | some image =>
    let currentRotation := getRotation image side
    let newRotation := currentRotation + deltaRotation
    match side with
    | Side.left => l.set pairIndex { image with leftRotation := newRotation }
    | Side.right => l.set pairIndex { image with rightRotation := newRotation }

/-- Model of `toggleCheck(pairIndex, side)`: look the pair up, return unchanged when
the index is out of bounds, otherwise negate the addressed checked flag. -/
def toggleCheck (l : List SplitImage) (pairIndex : Nat) (side : Side) :
    List SplitImage :=
  match l[pairIndex]? with
  | none => l
  | some image =>
    match side with
    | Side.left => l.set pairIndex { image with leftChecked := !image.leftChecked }
    | Side.right => l.set pairIndex { image with rightChecked := !image.rightChecked }

/-- Model of `removeImagePair(index)`, which splices one element out: remove
the element at `index` (no-op when out of bounds, as for `splice`). -/
def removeImagePair (l : List SplitImage) (index : Nat) : List SplitImage :=
  l.eraseIdx index

lemma tmod_360_lower (x : Int) : -360 < x.tmod 360 := by
  cases x with
  | ofNat m =>
    have h : 0 ≤ (Int.ofNat m).tmod 360 := Int.tmod_nonneg 360 (Int.ofNat_nonneg m)
    omega
  | negSucc m =>
    have h1 : (Int.negSucc m).tmod 360 = -(((m + 1) % 360 : Nat) : Int) := rfl
    have h2 : (m + 1) % 360 < 360 := Nat.mod_lt _ (by omega)
    rw [h1]
    omega

/-- The JS normalization agrees with Euclidean mod by 360. -/
lemma normalizeRotation_eq_emod (x : Int) : normalizeRotation x = x % 360 := by
  unfold normalizeRotation
  have hlow : -360 < x.tmod 360 := tmod_360_lower x
  have h0 : (0 : Int) ≤ x.tmod 360 + 360 := by omega
  rw [Int.tmod_eq_emod h0 (by norm_num)]
  have hd : x.tmod 360 = x - 360 * x.tdiv 360 := Int.tmod_def x 360
  omega

/-- C5: the rotation normalization `((x % 360) + 360) % 360` (JS truncating
`%`) lands in `[0, 360)` for every integer, and it is idempotent. -/
theorem rotation_normalization_range_and_idempotent (x : Int) :
    0 ≤ normalizeRotation x ∧ normalizeRotation x < 360 ∧
      normalizeRotation (normalizeRotation x) = normalizeRotation x := by
  rw [normalizeRotation_eq_emod, normalizeRotation_eq_emod]
  omega

/-- C6: orientation detection picks the vertical midline (left/right halves)
iff width > height; square images fall into the horizontal-split branch. -/
theorem orientation_detection_policy (w h : Nat) (hw : 0 < w) (hh : 0 < h) :
    ((detectAxis w h = SplitAxis.vertical) ↔ w > h) ∧
      (w = h → detectAxis w h = SplitAxis.horizontal) := by
  unfold detectAxis
  constructor
  · constructor
    · intro hv
      by_contra hgt
      simp [if_neg hgt] at hv
    · intro hgt
      simp [if_pos hgt]
  · intro heq
    have : ¬ w > h := by omega
    simp [if_neg this]

/-- C6 witness: at the concrete dimensions 4000×2000 and 100×100. -/
theorem orientation_detection_policy_witness :
    detectAxis 4000 2000 = SplitAxis.vertical ∧
      detectAxis 100 100 = SplitAxis.horizontal :=
  ⟨((orientation_detection_policy 4000 2000 (by decide) (by decide)).1).2 (by decide),
   (orientation_detection_policy 100 100 (by decide) (by decide)).2 rfl⟩

/-- C2: for a wide image the two half canvases each have width
`floor(width/2)` and the source height, their widths sum to
`floor(width/2)*2`, and exactly one column is dropped iff width is odd;
symmetrically with `floor(height/2)` for width ≤ height. -/
theorem split_half_dimensions (w h : Nat) :
    (w > h →
      (splitDims w h).firstWidth = w / 2 ∧ (splitDims w h).secondWidth = w / 2 ∧
      (splitDims w h).firstHeight = h ∧ (splitDims w h).secondHeight = h ∧
      (splitDims w h).firstWidth + (splitDims w h).secondWidth = (w / 2) * 2 ∧
      (w - ((splitDims w h).firstWidth + (splitDims w h).secondWidth) = 1 ↔
        w % 2 = 1)) ∧
    (w ≤ h →
      (splitDims w h).firstHeight = h / 2 ∧ (splitDims w h).secondHeight = h / 2 ∧
      (splitDims w h).firstWidth = w ∧ (splitDims w h).secondWidth = w ∧
      (splitDims w h).firstHeight + (splitDims w h).secondHeight = (h / 2) * 2 ∧
      (h - ((splitDims w h).firstHeight + (splitDims w h).secondHeight) = 1 ↔
        h % 2 = 1)) := by
  constructor
  · intro hgt
    unfold splitDims
    rw [if_pos hgt]
    refine ⟨rfl, rfl, rfl, rfl, ?_, ?_⟩
    · show w / 2 + w / 2 = w / 2 * 2
      omega
    · show w - (w / 2 + w / 2) = 1 ↔ w % 2 = 1
      omega
  · intro hle
    have hng : ¬ w > h := by omega
    unfold splitDims
    rw [if_neg hng]
    refine ⟨rfl, rfl, rfl, rfl, ?_, ?_⟩
    · show h / 2 + h / 2 = h / 2 * 2
      omega
    · show h - (h / 2 + h / 2) = 1 ↔ h % 2 = 1
      omega

/-- C2 witness: a 4001×2000 image splits into two 2000×2000 halves with one
column dropped. -/
theorem split_half_dimensions_witness :
    (splitDims 4001 2000).firstWidth = 2000 ∧
      (splitDims 4001 2000).firstWidth + (splitDims 4001 2000).secondWidth = 4000 ∧
      4001 - ((splitDims 4001 2000).firstWidth + (splitDims 4001 2000).secondWidth) = 1 := by
  have h := (split_half_dimensions 4001 2000).1 (by decide)
  exact ⟨h.1, by rw [h.1, h.2.1], (h.2.2.2.2.2).2 (by decide)⟩

/-- C4: the export canvas swaps width and height relative to the source iff
the normalized rotation is 90 or 270, and keeps the source dimensions when
the normalized rotation is 0 or 180. -/
theorem export_canvas_swap (w h : Nat) (rot : Int) :
    (normalizeRotation rot = 90 ∨ normalizeRotation rot = 270 →
      exportCanvasDims w h rot = (h, w)) ∧
    (¬(normalizeRotation rot = 90 ∨ normalizeRotation rot = 270) →
      exportCanvasDims w h rot = (w, h)) ∧
    (normalizeRotation rot = 0 ∨ normalizeRotation rot = 180 →
      exportCanvasDims w h rot = (w, h)) := by
  refine ⟨?_, ?_, ?_⟩
  · intro hc
    simp only [exportCanvasDims]
    rw [if_pos hc]
  · intro hc
    simp only [exportCanvasDims]
    rw [if_neg hc]
  · intro hc
    have hne : ¬(normalizeRotation rot = 90 ∨ normalizeRotation rot = 270) := by
      omega
    simp only [exportCanvasDims]
    rw [if_neg hne]

/-- C4 witness: a stored angle of −270 normalizes to 90 and swaps the canvas,
while a stored 360 normalizes to 0 and keeps it. -/
theorem export_canvas_swap_witness :
    exportCanvasDims 3000 2000 (-270) = (2000, 3000) ∧
      exportCanvasDims 3000 2000 360 = (3000, 2000) :=
  ⟨(export_canvas_swap 3000 2000 (-270)).1 (by decide),
   (export_canvas_swap 3000 2000 360).2.2 (by decide)⟩

/-- A concrete pair used by closed statements below. -/
def demoPair : SplitImage :=
  { leftHalf := "L", rightHalf := "R", leftHalfOriginal := "LO",
    rightHalfOriginal := "RO", originalName := "demo.jpg",
    leftRotation := 0, rightRotation := 0,
    leftChecked := false, rightChecked := false }

/-- C3: for every in-range index, side and delta in {0, 90, −90, 180}, the
rotate operation stores exactly `previous + delta` (no store-time
normalization), and four +90 steps from 0 store 360, which normalizes to 0. -/
theorem rotate_stores_unnormalized_sum :
    (∀ (l : List SplitImage) (i : Nat) (side : Side) (d : Int),
      i < l.length → (d = 0 ∨ d = 90 ∨ d = -90 ∨ d = 180) →
      ((rotateToDirection l i side d)[i]?).map (fun img => getRotation img side) =
        (l[i]?).map (fun img => getRotation img side + d)) ∧
    (((rotateToDirection (rotateToDirection (rotateToDirection (rotateToDirection
        [demoPair] 0 Side.left 90) 0 Side.left 90) 0 Side.left 90) 0 Side.left 90)[0]?).map
          (fun img => img.leftRotation) = some 360 ∧
      normalizeRotation 360 = 0) := by
  constructor
  · intro l i side d hi hd
    have hsome : l[i]? = some (l.get ⟨i, hi⟩) := List.getElem?_eq_getElem hi
    cases side with
    | left =>
      simp only [rotateToDirection, hsome, getRotation]
      rw [List.getElem?_set_self (by simpa using hi)]
      simp
    | right =>
      simp only [rotateToDirection, hsome, getRotation]
      rw [List.getElem?_set_self (by simpa using hi)]
      simp
  · exact ⟨by decide, by decide⟩

/-- C3 witness: one in-range +90 rotation on a singleton registry. -/
theorem rotate_stores_unnormalized_sum_witness :
    ((rotateToDirection [demoPair] 0 Side.left 90)[0]?).map
        (fun img => getRotation img Side.left) =
      (([demoPair] : List SplitImage)[0]?).map
        (fun img => getRotation img Side.left + 90) :=
  rotate_stores_unnormalized_sum.1 [demoPair] 0 Side.left 90 (by decide)
    (Or.inr (Or.inl rfl))

/-- C10: rotate and toggle-selection are no-ops at any out-of-bounds index. -/
theorem out_of_bounds_ops_noop (l : List SplitImage) (i : Nat) (side : Side)
    (d : Int) (hi : l.length ≤ i) :
    rotateToDirection l i side d = l ∧ toggleCheck l i side = l := by
  have hnone : l[i]? = none := List.getElem?_eq_none hi
  constructor
  · unfold rotateToDirection
    rw [hnone]
  · unfold toggleCheck
    rw [hnone]

/-- C10 witness: index 5 on the empty registry. -/
theorem out_of_bounds_ops_noop_witness :
    rotateToDirection [] 5 Side.left 90 = [] ∧ toggleCheck [] 5 Side.left = [] :=
  out_of_bounds_ops_noop [] 5 Side.left 90 (by decide)

lemma getElem?_eraseIdx_of_lt {α : Type} (l : List α) (i j : Nat) (h : i < j) :
    (l.eraseIdx j)[i]? = l[i]? := by
  induction l generalizing i j with
  | nil => simp
  | cons a t ih =>
    cases j with
    | zero => omega
    | succ j₂ =>
      cases i with
      | zero => simp
      | succ i₂ =>
        simp only [List.eraseIdx_cons_succ, List.getElem?_cons_succ]
        exact ih i₂ j₂ (by omega)

lemma getElem?_eraseIdx_of_le {α : Type} (l : List α) (i j : Nat) (h : j ≤ i) :
    (l.eraseIdx j)[i]? = l[i + 1]? := by
  induction l generalizing i j with
  | nil => simp
  | cons a t ih =>
    cases j with
    | zero => simp
    | succ j₂ =>
      cases i with
      | zero => omega
      | succ i₂ =>
        simp only [List.eraseIdx_cons_succ, List.getElem?_cons_succ]
        exact ih i₂ j₂ (by omega)

/-- A second concrete pair, distinct from `demoPair`. -/
def demoPair2 : SplitImage :=
  { demoPair with originalName := "demo2.jpg", leftRotation := 90 }

/-- C8: toggling (selecting) one half of pair `i` and then removing a
different pair `j` leaves the whole surviving record — its checked
flags and rotation angles included — unchanged; only its index may shift. -/
theorem toggle_then_remove_other_preserves (l : List SplitImage) (i j : Nat)
    (side : Side) (hij : i ≠ j) (hi : i < l.length) (hj : j < l.length) :
    ((removeImagePair (toggleCheck l i side) j)[if i < j then i else i - 1]?).map
        (fun img => (getChecked img side, getRotation img side)) =
      ((toggleCheck l i side)[i]?).map
        (fun img => (getChecked img side, getRotation img side)) ∧
    (removeImagePair (toggleCheck l i side) j)[if i < j then i else i - 1]? =
      (toggleCheck l i side)[i]? := by
  have key : (removeImagePair (toggleCheck l i side) j)[if i < j then i else i - 1]? =
      (toggleCheck l i side)[i]? := by
    unfold removeImagePair
    by_cases hlt : i < j
    · rw [if_pos hlt]
      exact getElem?_eraseIdx_of_lt _ i j hlt
    · rw [if_neg hlt]
      rw [getElem?_eraseIdx_of_le _ (i - 1) j (by omega)]
      have hi1 : i - 1 + 1 = i := by omega
      rw [hi1]
  exact ⟨by rw [key], key⟩

/-- C8 witness: toggle the left half of pair 0, then remove pair 1. -/
theorem toggle_then_remove_other_preserves_witness :
    (removeImagePair (toggleCheck [demoPair, demoPair2] 0 Side.left) 1)[
        if (0 : Nat) < 1 then 0 else 0 - 1]? =
      (toggleCheck [demoPair, demoPair2] 0 Side.left)[0]? :=
  (toggle_then_remove_other_preserves [demoPair, demoPair2] 0 1 Side.left
    (by decide) (by decide) (by decide)).2

/-- Transient progress state (`downloadProgress.value`). -/
structure ProgressState where
  current : Nat
  total : Nat
deriving DecidableEq

/-- The mutable state touched by `downloadChecked`. -/
structure AppState where
  splitImages : List SplitImage
  isDownloading : Bool
  downloadProgress : ProgressState
  shouldStopDownload : Bool
deriving DecidableEq

/-- One browser download triggered by `downloadHalf(imageData, rotation,
fileName, sideLabel)`. -/
structure DownloadAction where
  imageData : String
  rotation : Int
  fileName : String
  sideLabel : String
deriving DecidableEq

/-- Count of checked halves across the registry: the `checkedCount` computed
property, and the identical `total` reduce at the top of `downloadChecked`. -/
def checkedCount (l : List SplitImage) : Nat :=
  l.foldl (fun count img =>
    count + (if img.leftChecked then 1 else 0) +
      (if img.rightChecked then 1 else 0)) 0

/-- The body of the `downloadChecked` loop: for each pair, a download for the
left half if checked, then one for the right half if checked. -/
def downloadActions : List SplitImage → List DownloadAction
  | [] => []
  | img :: rest =>
    (if img.leftChecked then
      [{ imageData := img.leftHalfOriginal, rotation := img.leftRotation,
         fileName := img.originalName, sideLabel := "left" }]
     else []) ++
    (if img.rightChecked then
      [{ imageData := img.rightHalfOriginal, rotation := img.rightRotation,
         fileName := img.originalName, sideLabel := "right" }]
     else []) ++
    downloadActions rest

/-- Model of `downloadChecked`: counts the selected halves; the early return
on a zero total leaves every piece of state untouched and triggers nothing.
Otherwise the run-to-completion effect (no stop request arriving during the
run is modelled): the loop emits one download per checked half, and the
epilogue resets `isDownloading` and `shouldStopDownload`. -/
def downloadChecked (s : AppState) : AppState × List DownloadAction :=
  let total := checkedCount s.splitImages
  if total = 0 then (s, [])
  else
    let actions := downloadActions s.splitImages
    ({ s with isDownloading := false,
              shouldStopDownload := false,
              downloadProgress := { current := actions.length, total := total } },
     actions)

/-- C9: when no half is selected, starting an export is a no-op — the state
is unchanged and no download is triggered. -/
theorem download_noop_when_none_selected (s : AppState)
    (h : checkedCount s.splitImages = 0) :
    downloadChecked s = (s, []) := by
  simp [downloadChecked, h]

/-- C9 witness: a registry with one fully unselected pair. -/
theorem download_noop_when_none_selected_witness :
    downloadChecked { splitImages := [demoPair], isDownloading := false,
                      downloadProgress := { current := 0, total := 0 },
                      shouldStopDownload := false } =
      ({ splitImages := [demoPair], isDownloading := false,
         downloadProgress := { current := 0, total := 0 },
         shouldStopDownload := false }, []) :=
  download_noop_when_none_selected _ (by decide)

/-- One step of matching the anchored regex `\.[^/.]+$` used by the replace
call in `downloadHalf`, scanning the reversed file name.  `seen` records
whether at least one character outside dot-or-slash has been consumed.  A dot
with `seen` set completes the match and returns the reversed base name; a
slash, or a dot with nothing after it, means the regex does not match. -/
def matchExtRev : List Char → Bool → Option (List Char)
  | [], _ => none
  | c :: rest, seen =>
    if c = '.' then (if seen then some rest else none)
    else if c = '/' then none
    else matchExtRev rest true

/-- Model of the replace call on the file name with regex `\.[^/.]+$` and an
empty replacement: drop the matched suffix when the regex matches, otherwise
return the name unchanged. -/
def replaceExtEmpty (name : List Char) : List Char :=
  match matchExtRev name.reverse false with
  | some baseRev => baseRev.reverse
  | none => name

/-- The download attribute built by `downloadHalf`: the stripped file name,
an underscore, the side label, and the literal suffix .jpg. -/
def downloadName (fileName sideLabel : List Char) : List Char :=
  replaceExtEmpty fileName ++ ('_' :: sideLabel) ++ ".jpg".toList

/-- Spec-side counterpart of `matchExtRev`, following the words of the spec
that the base name strips the last dot-delimited extension: an extension is a
nonempty run of non-dot characters after the final dot (no condition about
slashes, which cannot occur in a file name). -/
def specMatchExtRev : List Char → Bool → Option (List Char)
  | [], _ => none
  | c :: rest, seen =>
    if c = '.' then (if seen then some rest else none)
    else specMatchExtRev rest true

/-- Spec-side base name: the file name with its last dot-delimited extension
stripped (unchanged when there is no extension). -/
def specBaseName (name : List Char) : List Char :=
  match specMatchExtRev name.reverse false with
  | some baseRev => baseRev.reverse
  | none => name

lemma matchExtRev_eq_spec (l : List Char) (b : Bool) (hl : '/' ∉ l) :
    matchExtRev l b = specMatchExtRev l b := by
  induction l generalizing b with
  | nil => rfl
  | cons c rest ih =>
    have hc : c ≠ '/' := fun hc => hl (by simp [hc])
    have hrest : '/' ∉ rest := fun hr => hl (List.mem_cons_of_mem _ hr)
    by_cases hdot : c = '.'
    · simp [matchExtRev, specMatchExtRev, hdot]
    · simp [matchExtRev, specMatchExtRev, hdot, hc, ih true hrest]

/-- C7: for every source file name (file names contain no path separator)
and side label in {"left", "right"}, the download is named by stripping the
last dot-delimited extension and appending `_<side>.jpg`. -/
theorem download_file_naming (name side : List Char)
    (hslash : '/' ∉ name)
    (hside : side = "left".toList ∨ side = "right".toList) :
    downloadName name side = specBaseName name ++ ('_' :: side) ++ ".jpg".toList := by
  unfold downloadName replaceExtEmpty specBaseName
  rw [matchExtRev_eq_spec name.reverse false (by simpa using hslash)]

/-- C7 witness: importing "roll1.jpg" and downloading the left half yields
"roll1_left.jpg". -/
theorem download_file_naming_witness :
    downloadName "roll1.jpg".toList "left".toList =
        specBaseName "roll1.jpg".toList ++ ('_' :: "left".toList) ++ ".jpg".toList ∧
      downloadName "roll1.jpg".toList "left".toList = "roll1_left.jpg".toList :=
  ⟨download_file_naming "roll1.jpg".toList "left".toList (by decide) (Or.inl rfl),
   by decide⟩

/-- Decode outcome of one selected file, as consumed by the batch loop of
`handleFileSelect`: `some pair` when `processFile` resolves with the split
result, `none` when the decode rejects (`img.onerror` / `reader.onerror`
propagated by the reject calls in `processFile`). -/
def runImport : List SplitImage → List (Option SplitImage) → List SplitImage × Bool
  | registry, [] => (registry, true)
  | registry, [some a] => (registry ++ [a], true)
  | _registry, [none] => (_registry, false)
  | registry, some a :: some b :: rest => runImport (registry ++ [a, b]) rest
  | registry, none :: _ :: _ => (registry, false)
  | registry, some _ :: none :: _ => (registry, false)

/-- A pair derived from `demoPair` with a distinguishing source name. -/
def mkPair (name : String) : SplitImage :=
  { demoPair with originalName := name }

/-- Scenario from the spec: a 5-file batch whose third file is corrupt. -/
def corruptBatchFiles : List (Option SplitImage) :=
  [some (mkPair "f1.jpg"), some (mkPair "f2.jpg"), none,
   some (mkPair "f4.jpg"), some (mkPair "f5.jpg")]

/-- C1 counterexample: importing 5 files where file 3 fails to decode leaves
2 pairs in the registry (only the first completed batch), not the claimed
n − 1 = 4, and the loop aborts instead of running to completion. -/
theorem batch_decode_failure_counterexample :
    (runImport [] corruptBatchFiles).1 = [mkPair "f1.jpg", mkPair "f2.jpg"] ∧
      (runImport [] corruptBatchFiles).1.length = 2 ∧
      ¬ (runImport [] corruptBatchFiles).1.length = 4 ∧
      (runImport [] corruptBatchFiles).2 = false := by
  refine ⟨by decide, by decide, by decide, by decide⟩

/-- C1 amended: a decode failure is not swallowed per item — the
`Promise.all` of the batch rejects and the unguarded `await` aborts
the whole loop.  Any
file list containing a failing file never completes normally, and in the
5-file scenario with file 3 corrupt the registry gains exactly the two pairs
of the first (fully successful) batch. -/
theorem batch_decode_failure_aborts :
    (∀ (registry : List SplitImage) (files : List (Option SplitImage)),
      (∃ f ∈ files, f = none) → (runImport registry files).2 = false) ∧
    (∀ (registry : List SplitImage) (a b c d : SplitImage),
      runImport registry [some a, some b, none, some c, some d] =
        (registry ++ [a, b], false)) := by
  constructor
  · intro registry files hfail
    induction registry, files using runImport.induct with
    | case1 reg => simp at hfail
    | case2 reg a => simp at hfail
    | case3 reg => rfl
    | case4 reg a b rest ih =>
      have hrest : ∃ f ∈ rest, f = none := by
        rcases hfail with ⟨f, hf, hfn⟩
        subst hfn
        simp only [List.mem_cons] at hf
        rcases hf with hf | hf | hf
        · exact absurd hf (by simp)
        · exact absurd hf (by simp)
        · exact ⟨none, hf, rfl⟩
      exact ih hrest
    | case5 reg x rest => rfl
    | case6 reg a rest => rfl
  · intro registry a b c d
    rfl

/-- C1 amended witness: a single corrupt file aborts the import. -/
theorem batch_decode_failure_aborts_witness :
    (runImport [] [none]).2 = false :=
  batch_decode_failure_aborts.1 [] [none] ⟨none, by simp, rfl⟩
